import Mathlib

/-!
# ernestio/authorization-store: the record engine of `entity.go`

A shallow embedding of `src/entity.go`. The Go methods of `Entity` talk to a
PostgreSQL table through the gorm ORM (`db.Where`, `db.First`, `db.Find`,
`db.Save`, `db.Unscoped().Delete`). The table is embedded as an explicit
`Store` value that every operation receives and returns; the clock that gorm
reads (`NowFunc`) is the explicit argument `now`.

The first part holds the table and the gorm calls `entity.go` makes, the second
the methods of `Entity`, line by line, the third the theorems.
-/

namespace AuthorizationStore

/-! ## The mapped entity and the table -/

/-- Entity, the database mapped entity (entity.go:17-26). `ID` is the primary
key, (`UserID`, `ResourceID`, `ResourceType`) carry the unique index `idx_uniq`.
Timestamps are instants counted as naturals, `0` being Go's zero `time.Time`;
`DeletedAt` is the nullable soft-delete column (`none` = live row). -/
structure Entity where
  ID : Nat
  UserID : String
  ResourceID : String
  ResourceType : String
  Role : String
  CreatedAt : Nat
  UpdatedAt : Nat
  DeletedAt : Option Nat
deriving DecidableEq, Repr

/-- The zero value `Entity{}` of Go. -/
def Entity.zero : Entity :=
  { ID := 0, UserID := "", ResourceID := "", ResourceType := "", Role := "",
    CreatedAt := 0, UpdatedAt := 0, DeletedAt := none }

/-- The table `authorizations`: its rows in the order a `SELECT` without
`ORDER BY` returns them (insertion order; an updated row keeps its place), and
the last value handed out by the serial sequence behind the primary key. -/
structure Store where
  rows : List Entity
  seq : Nat
deriving DecidableEq, Repr

/-- The columns of the unique index `idx_uniq` (entity.go:19-21). -/
def triple (r : Entity) : String × String × String :=
  (r.UserID, r.ResourceID, r.ResourceType)

/-- A live row: `deleted_at IS NULL`, the condition gorm adds to every scoped
statement on a model that has a `DeletedAt` field. -/
def live (r : Entity) : Bool := r.DeletedAt.isNone

/-! ## The gorm calls used by `entity.go` -/

/-- The row of least id of a result set (`ORDER BY id ASC LIMIT 1`); among rows
of equal id the earliest in storage order. -/
def firstByID : List Entity → Option Entity
  | [] => none
  | r :: rs =>
    match firstByID rs with
    | none => some r
    | some m => if r.ID ≤ m.ID then some r else some m

/-- The call `db.Where(cond).Find(&entities)`:
`SELECT * FROM authorizations WHERE deleted_at IS NULL AND (cond)`, rows in
storage order. -/
def dbFind (s : Store) (cond : Entity → Bool) : List Entity :=
  s.rows.filter (fun r => live r && cond r)

/-- The call `db.Where(cond).First(&out)`: the live row of least id that
satisfies `cond` is copied into `out`; when there is none gorm reports
`ErrRecordNotFound` and leaves `out` as it was. -/
def dbFirst (s : Store) (cond : Entity → Bool) (out : Entity) : Entity :=
  match firstByID (dbFind s cond) with
  | some r => r
  | none => out

/-- An `INSERT` of `row` is refused by the table when the primary key
(`gorm:"primary_key"`, entity.go:18) or the unique index
(`gorm:"unique_index:idx_uniq"`, entity.go:19-21) already holds its key.
Soft-deleted rows count: the index covers every row of the table. The error
comes back in the `*gorm.DB` result, which `entity.go` never reads. -/
def insertConflict (s : Store) (row : Entity) : Bool :=
  s.rows.any (fun r => r.ID == row.ID || triple r == triple row)

/-- The timestamp callback of a create: `CreatedAt` and `UpdatedAt` are set to
`now` when blank. -/
def createStamps (now : Nat) (v : Entity) : Entity :=
  { v with CreatedAt := if v.CreatedAt = 0 then now else v.CreatedAt,
           UpdatedAt := if v.UpdatedAt = 0 then now else v.UpdatedAt }

/-- The create callbacks of gorm: the timestamps are stamped, then the row is
inserted. With a blank primary key the id comes from the serial sequence
(which advances even when the insert is refused); with a non-blank one the id
is inserted as given. Returns the table and the value as gorm leaves it. -/
def dbCreate (s : Store) (now : Nat) (v : Entity) : Store × Entity :=
  let v1 := createStamps now v
  if v1.ID = 0 then
    let row := { v1 with ID := s.seq + 1 }
    if insertConflict s row then ({ rows := s.rows, seq := s.seq + 1 }, v1)
    else ({ rows := s.rows ++ [row], seq := s.seq + 1 }, row)
  else
    if insertConflict s v1 then (s, v1)
    else ({ rows := s.rows ++ [v1], seq := s.seq }, v1)

/-- The call `db.Save(&v)` of gorm v1. With a blank primary key it creates.
Otherwise it runs `UPDATE authorizations SET <every column>, updated_at = now
WHERE deleted_at IS NULL AND id = v.ID`; the statement is refused when another
row holds the same `idx_uniq` key; when it touches no row gorm falls back to
`FirstOrCreate`, which finds nothing and creates the value with its id. -/
def dbSave (s : Store) (now : Nat) (v : Entity) : Store × Entity :=
  if v.ID = 0 then dbCreate s now v
  else
    let v1 := { v with UpdatedAt := now }
    if s.rows.any (fun r => live r && r.ID == v.ID) then
      if s.rows.any (fun r => !(live r && r.ID == v.ID) && triple r == triple v1) then (s, v1)
      else ({ rows := s.rows.map (fun r => if live r && r.ID == v.ID then v1 else r),
              seq := s.seq }, v1)
    else dbCreate s now v1

/-- The call `db.Unscoped().Delete(&v)` of gorm v1: `Unscoped` switches the
soft delete off, so the statement is `DELETE FROM authorizations WHERE id = v.ID`,
and with a blank primary key the `WHERE` is left out and every row goes. -/
def dbUnscopedDelete (s : Store) (v : Entity) : Store :=
  if v.ID = 0 then { rows := [], seq := s.seq }
  else { rows := s.rows.filter (fun r => r.ID != v.ID), seq := s.seq }

/-! ## Input decoding -/

/-- The outcome of `json.Unmarshal(body, &e)` on a payload: the members it
stored into the receiver (`none` = the key is absent, `null`, or was refused)
and whether it returned an error. A payload that is not valid JSON stores
nothing and returns an error; a payload with a member of the wrong type stores
the others and returns an error. `DeletedAt` is tagged `json:"-"` and is never
decoded. The payload `null`, which resets the pointer itself, is not covered. -/
structure Body where
  id : Option Nat
  user_id : Option String
  resource_id : Option String
  resource_type : Option String
  role : Option String
  created_at : Option Nat
  updated_at : Option Nat
  err : Bool
deriving DecidableEq, Repr

/-- A payload that is not valid JSON: nothing is stored, an error is returned. -/
def Body.malformed : Body :=
  { id := none, user_id := none, resource_id := none, resource_type := none,
    role := none, created_at := none, updated_at := none, err := true }

/-! ## The methods of `Entity` -/

/-- Find (entity.go:35-54): based on the defined fields of the current entity,
performs a search on the database. The five branches are kept as written. -/
def Entity.Find (s : Store) (e : Entity) : List Entity :=
  if e.UserID == "" then
    dbFind s (fun r => r.ResourceID == e.ResourceID && r.ResourceType == e.ResourceType)
  else if e.ResourceID == "" then
    dbFind s (fun r => r.UserID == e.UserID && r.ResourceType == e.ResourceType)
  else if e.Role == "" then
    dbFind s (fun r => r.UserID == e.UserID && r.ResourceID == e.ResourceID
      && r.ResourceType == e.ResourceType)
  else if e.Role == "" && e.ResourceID == "" && e.UserID == "" then
    dbFind s (fun _ => true)
  else
    dbFind s (fun r => r.UserID == e.UserID && r.ResourceID == e.ResourceID
      && r.ResourceType == e.ResourceType && r.Role == e.Role)

/-- MapInput (entity.go:57-61): maps the input on the current entity. The error
of `json.Unmarshal` is written to the log and dropped; the method returns
nothing. -/
def Entity.MapInput (e : Entity) (body : Body) : Entity :=
  { ID := body.id.getD e.ID,
    UserID := body.user_id.getD e.UserID,
    ResourceID := body.resource_id.getD e.ResourceID,
    ResourceType := body.resource_type.getD e.ResourceType,
    Role := body.role.getD e.Role,
    CreatedAt := body.created_at.getD e.CreatedAt,
    UpdatedAt := body.updated_at.getD e.UpdatedAt,
    DeletedAt := e.DeletedAt }

/-- HasID (entity.go:64-69). -/
def Entity.HasID (e : Entity) : Bool :=
  if e.ID = 0 then false else true

/-- The lookup of LoadFromInput (entity.go:74-79), into `var stored Entity`. -/
def Entity.LoadFromInput.lookup (s : Store) (e1 : Entity) : Entity :=
  if e1.ID > 0 then dbFirst s (fun r => r.ID == e1.ID) Entity.zero
  else dbFirst s (fun r => r.UserID == e1.UserID && r.ResourceID == e1.ResourceID
    && r.ResourceType == e1.ResourceType && r.Role == e1.Role) Entity.zero

/-- LoadFromInput (entity.go:72-97): loads the stored entity named by the
input. Returns the receiver as the method leaves it and the boolean result.
The test `&stored == nil` of line 81 is never true. -/
def Entity.LoadFromInput (s : Store) (e : Entity) (msg : Body) : Entity × Bool :=
  let e1 := e.MapInput msg
  let stored := Entity.LoadFromInput.lookup s e1
  if !stored.HasID then (e1, false)
  else
    ({ e1 with ID := stored.ID, UserID := stored.UserID, ResourceID := stored.ResourceID,
               ResourceType := stored.ResourceType, Role := stored.Role,
               CreatedAt := stored.CreatedAt, UpdatedAt := stored.UpdatedAt }, true)

/-- LoadFromInputOrFail (entity.go:101-110): loads into a fresh entity, copies
it over the receiver (`*e = *stored`) and returns the result; the handler's
`Fail` reply is sent exactly when the result is `false`. -/
def Entity.LoadFromInputOrFail (s : Store) (msg : Body) : Entity × Bool :=
  Entity.LoadFromInput s Entity.zero msg

/-- What `Update` leaves behind: the table, the receiver `*e` as the caller
sees it, the local `stored` after `db.Save` (the record sent to the table), and
the returned error (`none` = `nil`). -/
structure UpdateResult where
  store : Store
  receiver : Entity
  stored : Entity
  err : Option String
deriving DecidableEq, Repr

/-- The lookup of Update (entity.go:115-120), into `stored := Entity{}`. -/
def Entity.Update.lookup (s : Store) (e1 : Entity) : Entity :=
  if e1.ID > 0 then dbFirst s (fun r => r.ID == e1.ID) Entity.zero
  else dbFirst s (fun r => r.UserID == e1.UserID && r.ResourceID == e1.ResourceID
    && r.ResourceType == e1.ResourceType) Entity.zero

/-- Update (entity.go:113-128): updates the current entity with the input.
Line 125, `e = &stored`, rebinds the method's own pointer variable: the
caller's entity keeps what `MapInput` wrote into it. The method returns `nil`
on every path. -/
def Entity.Update (s : Store) (now : Nat) (e : Entity) (body : Body) : UpdateResult :=
  let e1 := e.MapInput body
  let stored := Entity.Update.lookup s e1
  let stored1 := { stored with Role := e1.Role }
  let saved := dbSave s now stored1
  { store := saved.1, receiver := e1, stored := saved.2, err := none }

/-- Delete (entity.go:131-135): deletes the current entity from the database;
returns `nil` on every path. -/
def Entity.Delete (s : Store) (e : Entity) : Store × Option String :=
  (dbUnscopedDelete s e, none)

/-- Save (entity.go:138-142): persists the current entity; `db.Save` writes
the assigned id and timestamps back into it. Returns the table, the receiver
and the error, `nil` on every path. -/
def Entity.Save (s : Store) (now : Nat) (e : Entity) : Store × Entity × Option String :=
  let saved := dbSave s now e
  (saved.1, saved.2, none)

/-! ## Schema constraints and the spec's predicates -/

/-- Ids are never blank: the serial primary key starts at 1. -/
def IdsNonzero (s : Store) : Prop := ∀ r ∈ s.rows, r.ID ≠ 0

/-- The primary key (entity.go:18): no two rows share an id. -/
def PrimaryKey (s : Store) : Prop := (s.rows.map Entity.ID).Nodup

/-- The unique index `idx_uniq` (entity.go:19-21): no two rows, live or
soft-deleted, share (user_id, resource_id, resource_type). -/
def IdxUniq (s : Store) : Prop := (s.rows.map triple).Nodup

/-- The serial sequence is ahead of every stored id. This is no constraint of
the schema: a `Save` with an explicit id may leave the sequence behind. -/
def SeqAhead (s : Store) : Prop := ∀ r ∈ s.rows, r.ID ≤ s.seq

/-- A table that satisfies the constraints of its schema (entity.go:18-21):
a serial primary key and the unique index `idx_uniq`. -/
def Store.WF (s : Store) : Prop :=
  IdsNonzero s ∧ PrimaryKey s ∧ IdxUniq s

/-- Invariant I1 of the spec: the triple (user_id, resource_id, resource_type)
is unique among live records. -/
def TripleUniqueLive (s : Store) : Prop := ((s.rows.filter live).map triple).Nodup

instance (s : Store) : Decidable (IdsNonzero s) := by unfold IdsNonzero; exact inferInstance
instance (s : Store) : Decidable (PrimaryKey s) := by unfold PrimaryKey; exact inferInstance
instance (s : Store) : Decidable (IdxUniq s) := by unfold IdxUniq; exact inferInstance
instance (s : Store) : Decidable (SeqAhead s) := by unfold SeqAhead; exact inferInstance
instance (s : Store) : Decidable (Store.WF s) := by unfold Store.WF; exact inferInstance
instance (s : Store) : Decidable (TripleUniqueLive s) := by
  unfold TripleUniqueLive; exact inferInstance

/-- The four supported shapes of a find input, in the spec's words. -/
def SupportedShape (e : Entity) : Prop :=
  (e.ResourceID ≠ "" ∧ e.ResourceType ≠ "" ∧ e.UserID = "" ∧ e.Role = "") ∨
  (e.UserID ≠ "" ∧ e.ResourceType ≠ "" ∧ e.ResourceID = "" ∧ e.Role = "") ∨
  (e.UserID ≠ "" ∧ e.ResourceID ≠ "" ∧ e.ResourceType ≠ "" ∧ e.Role = "") ∨
  (e.UserID ≠ "" ∧ e.ResourceID ≠ "" ∧ e.ResourceType ≠ "" ∧ e.Role ≠ "")

instance (e : Entity) : Decidable (SupportedShape e) := by
  unfold SupportedShape; exact inferInstance

/-- The spec's filter: the record equals the input on every one of the input's
non-empty fields among user_id, resource_id, resource_type and role. -/
def matchesNonEmpty (e r : Entity) : Bool :=
  (e.UserID == "" || r.UserID == e.UserID) &&
  (e.ResourceID == "" || r.ResourceID == e.ResourceID) &&
  (e.ResourceType == "" || r.ResourceType == e.ResourceType) &&
  (e.Role == "" || r.Role == e.Role)

/-! ## Sample tables and inputs -/

/-- A live row with the given id, identity fields and role, stamped at 5. -/
def row (id : Nat) (u rid rt role : String) : Entity :=
  { ID := id, UserID := u, ResourceID := rid, ResourceType := rt, Role := role,
    CreatedAt := 5, UpdatedAt := 5, DeletedAt := none }

/-- A find or load input with the given id, identity fields and role. -/
def query (id : Nat) (u rid rt role : String) : Entity :=
  { ID := id, UserID := u, ResourceID := rid, ResourceType := rt, Role := role,
    CreatedAt := 0, UpdatedAt := 0, DeletedAt := none }

/-- A well-formed payload with the given members and no id. -/
def payload (u rid rt : String) (role : Option String) : Body :=
  { id := none, user_id := some u, resource_id := some rid, resource_type := some rt,
    role := role, created_at := none, updated_at := none, err := false }

/-- A well-formed payload that carries an id only. -/
def payloadID (id : Nat) : Body :=
  { id := some id, user_id := none, resource_id := none, resource_type := none,
    role := none, created_at := none, updated_at := none, err := false }

/-- One record: u1 is admin of document r1. -/
def tableOne : Store := { rows := [row 1 "u1" "r1" "doc" "admin"], seq := 1 }

/-- Two users on the same document. -/
def tableTwo : Store :=
  { rows := [row 1 "u1" "r1" "doc" "admin", row 2 "u2" "r1" "doc" "viewer"], seq := 2 }

/-- A record granted to no user in particular, beside one of user u2, on the
same document. -/
def tableAnyUser : Store :=
  { rows := [row 1 "" "r1" "doc" "admin", row 2 "u2" "r1" "doc" "viewer"], seq := 2 }

/-- A table whose only row is soft-deleted. -/
def tableDeleted : Store :=
  { rows := [{ row 1 "u1" "r1" "doc" "admin" with DeletedAt := some 6 }], seq := 1 }

/-- The empty table. -/
def tableEmpty : Store := { rows := [], seq := 0 }

/-! ## Lemmas on the gorm calls -/

theorem firstByID_mem {l : List Entity} {r : Entity} (h : firstByID l = some r) : r ∈ l := by
  induction l generalizing r with
  | nil => simp [firstByID] at h
  | cons a l ih =>
    simp only [firstByID] at h
    cases hf : firstByID l with
    | none => rw [hf] at h; simp at h; simp [h]
    | some m =>
      rw [hf] at h
      by_cases hle : a.ID ≤ m.ID
      · simp [hle] at h; simp [h]
      · simp [hle] at h; subst h; exact List.mem_cons_of_mem _ (ih hf)

theorem firstByID_eq_none {l : List Entity} : firstByID l = none ↔ l = [] := by
  cases l with
  | nil => simp [firstByID]
  | cons a l =>
    simp only [firstByID]
    cases hf : firstByID l with
    | none => simp
    | some m => by_cases hle : a.ID ≤ m.ID <;> simp [hle]

theorem firstByID_of_forall_eq {l : List Entity} {x : Entity} (hne : l ≠ [])
    (h : ∀ y ∈ l, y = x) : firstByID l = some x := by
  cases hf : firstByID l with
  | none => exact absurd (firstByID_eq_none.mp hf) hne
  | some m => rw [h m (firstByID_mem hf)]

theorem mem_dbFind {s : Store} {cond : Entity → Bool} {r : Entity} :
    r ∈ dbFind s cond ↔ r ∈ s.rows ∧ live r = true ∧ cond r = true := by
  simp [dbFind, List.mem_filter]

/-- When a live row satisfies the condition, `First` returns some live row of
the table that satisfies it. -/
theorem dbFirst_found {s : Store} {cond : Entity → Bool} {r : Entity} (out : Entity)
    (hr : r ∈ s.rows) (hl : live r = true) (hc : cond r = true) :
    dbFirst s cond out ∈ s.rows ∧ live (dbFirst s cond out) = true ∧
      cond (dbFirst s cond out) = true := by
  unfold dbFirst
  cases hf : firstByID (dbFind s cond) with
  | none =>
    have := firstByID_eq_none.mp hf
    have hm : r ∈ dbFind s cond := mem_dbFind.mpr ⟨hr, hl, hc⟩
    rw [this] at hm; simp at hm
  | some m => exact mem_dbFind.mp (firstByID_mem hf)

/-- When no live row satisfies the condition, `First` leaves `out` untouched. -/
theorem dbFirst_none {s : Store} {cond : Entity → Bool} (out : Entity)
    (h : ∀ r ∈ s.rows, live r = true → cond r = false) : dbFirst s cond out = out := by
  unfold dbFirst
  cases hf : firstByID (dbFind s cond) with
  | none => rfl
  | some m =>
    have hm := mem_dbFind.mp (firstByID_mem hf)
    have := h m hm.1 hm.2.1
    rw [this] at hm; simp at hm

/-- Either `First` found a live row that satisfies the condition, or no live
row satisfies it and `out` is untouched. -/
theorem dbFirst_cases (s : Store) (cond : Entity → Bool) (out : Entity) :
    (dbFirst s cond out ∈ s.rows ∧ live (dbFirst s cond out) = true ∧
      cond (dbFirst s cond out) = true) ∨
    ((∀ r ∈ s.rows, live r = true → cond r = false) ∧ dbFirst s cond out = out) := by
  by_cases h : ∃ r ∈ s.rows, live r = true ∧ cond r = true
  · obtain ⟨r, hr, hl, hc⟩ := h
    exact Or.inl (dbFirst_found out hr hl hc)
  · right
    have h2 : ∀ r ∈ s.rows, live r = true → cond r = false := by
      intro r hr hl
      cases hc : cond r with
      | false => rfl
      | true => exact absurd ⟨r, hr, hl, hc⟩ h
    exact ⟨h2, dbFirst_none out h2⟩

/-- When the condition singles out one live row, `First` returns it. -/
theorem dbFirst_unique {s : Store} {cond : Entity → Bool} {r : Entity} (out : Entity)
    (hr : r ∈ s.rows) (hl : live r = true) (hc : cond r = true)
    (hu : ∀ y ∈ s.rows, live y = true → cond y = true → y = r) :
    dbFirst s cond out = r := by
  have h := dbFirst_found out hr hl hc
  exact hu _ h.1 h.2.1 h.2.2

/-- The lookup of `LoadFromInput` either returns a live row of the table that
answers the query (by id when the input has one, by the four fields
otherwise), or finds no such row and leaves the zero value. -/
theorem LoadFromInput_lookup_cases (s : Store) (e1 : Entity) :
    (Entity.LoadFromInput.lookup s e1 ∈ s.rows ∧
      live (Entity.LoadFromInput.lookup s e1) = true ∧
      (e1.ID ≠ 0 → (Entity.LoadFromInput.lookup s e1).ID = e1.ID) ∧
      (e1.ID = 0 → (Entity.LoadFromInput.lookup s e1).UserID = e1.UserID ∧
        (Entity.LoadFromInput.lookup s e1).ResourceID = e1.ResourceID ∧
        (Entity.LoadFromInput.lookup s e1).ResourceType = e1.ResourceType ∧
        (Entity.LoadFromInput.lookup s e1).Role = e1.Role)) ∨
    (Entity.LoadFromInput.lookup s e1 = Entity.zero ∧
      (e1.ID ≠ 0 → ∀ r ∈ s.rows, live r = true → r.ID ≠ e1.ID) ∧
      (e1.ID = 0 → ∀ r ∈ s.rows, live r = true →
        ¬ (r.UserID = e1.UserID ∧ r.ResourceID = e1.ResourceID ∧
          r.ResourceType = e1.ResourceType ∧ r.Role = e1.Role))) := by
  unfold Entity.LoadFromInput.lookup
  by_cases hid : e1.ID = 0
  · have h0 : ¬ e1.ID > 0 := by omega
    simp only [h0, if_false]
    rcases dbFirst_cases s (fun r => r.UserID == e1.UserID && r.ResourceID == e1.ResourceID
      && r.ResourceType == e1.ResourceType && r.Role == e1.Role) Entity.zero with h | h
    · left
      obtain ⟨hm, hl, hc⟩ := h
      simp only [Bool.and_eq_true, beq_iff_eq] at hc
      exact ⟨hm, hl, fun hne => absurd hid hne, fun _ => ⟨hc.1.1.1, hc.1.1.2, hc.1.2, hc.2⟩⟩
    · right
      obtain ⟨hn, he⟩ := h
      refine ⟨he, fun hne => absurd hid hne, fun _ r hr hl hc => ?_⟩
      have := hn r hr hl
      simp [hc.1, hc.2.1, hc.2.2.1, hc.2.2.2] at this
  · have h0 : e1.ID > 0 := by omega
    simp only [h0, if_true]
    rcases dbFirst_cases s (fun r => r.ID == e1.ID) Entity.zero with h | h
    · left
      obtain ⟨hm, hl, hc⟩ := h
      simp only [beq_iff_eq] at hc
      exact ⟨hm, hl, fun _ => hc, fun h0 => absurd h0 hid⟩
    · right
      obtain ⟨hn, he⟩ := h
      refine ⟨he, fun _ r hr hl hc => ?_, fun h0 => absurd h0 hid⟩
      have := hn r hr hl
      simp [hc] at this

/-- The result of `LoadFromInput` is `true` exactly when its lookup has an id. -/
theorem LoadFromInput_snd (s : Store) (e : Entity) (msg : Body) :
    (Entity.LoadFromInput s e msg).2 =
      (Entity.LoadFromInput.lookup s (Entity.MapInput e msg)).HasID := by
  unfold Entity.LoadFromInput
  cases h : (Entity.LoadFromInput.lookup s (Entity.MapInput e msg)).HasID <;> simp [h]

theorem HasID_iff (e : Entity) : e.HasID = true ↔ e.ID ≠ 0 := by
  unfold Entity.HasID
  by_cases h : e.ID = 0 <;> simp [h]

/-- On `true`, `LoadFromInput` has copied a live row of the table, whose id is
not blank, into the receiver. -/
theorem LoadFromInput_true_row (s : Store) (e : Entity) (msg : Body)
    (ht : (Entity.LoadFromInput s e msg).2 = true) :
    ∃ r ∈ s.rows, live r = true ∧ r.ID ≠ 0 ∧
      ((Entity.MapInput e msg).ID ≠ 0 → r.ID = (Entity.MapInput e msg).ID) ∧
      ((Entity.MapInput e msg).ID = 0 → r.UserID = (Entity.MapInput e msg).UserID ∧
        r.ResourceID = (Entity.MapInput e msg).ResourceID ∧
        r.ResourceType = (Entity.MapInput e msg).ResourceType ∧
        r.Role = (Entity.MapInput e msg).Role) ∧
      (Entity.LoadFromInput s e msg).1.ID = r.ID ∧
      (Entity.LoadFromInput s e msg).1.UserID = r.UserID ∧
      (Entity.LoadFromInput s e msg).1.ResourceID = r.ResourceID ∧
      (Entity.LoadFromInput s e msg).1.ResourceType = r.ResourceType ∧
      (Entity.LoadFromInput s e msg).1.Role = r.Role ∧
      (Entity.LoadFromInput s e msg).1.CreatedAt = r.CreatedAt ∧
      (Entity.LoadFromInput s e msg).1.UpdatedAt = r.UpdatedAt := by
  have hh : (Entity.LoadFromInput.lookup s (Entity.MapInput e msg)).HasID = true := by
    rw [← LoadFromInput_snd]; exact ht
  rcases LoadFromInput_lookup_cases s (Entity.MapInput e msg) with ⟨hm, hl, hi, h4⟩ | ⟨hz, _, _⟩
  · refine ⟨_, hm, hl, (HasID_iff _).mp hh, hi, h4, ?_⟩
    unfold Entity.LoadFromInput
    simp [hh]
  · rw [hz] at hh; simp [Entity.HasID, Entity.zero] at hh

/-- When the lookup finds nothing, `LoadFromInput` answers `false`. -/
theorem LoadFromInput_false_of_none (s : Store) (e : Entity) (msg : Body)
    (hid : (Entity.MapInput e msg).ID ≠ 0 →
      ∀ r ∈ s.rows, live r = true → r.ID ≠ (Entity.MapInput e msg).ID)
    (h4 : (Entity.MapInput e msg).ID = 0 → ∀ r ∈ s.rows, live r = true →
      ¬ (r.UserID = (Entity.MapInput e msg).UserID ∧
        r.ResourceID = (Entity.MapInput e msg).ResourceID ∧
        r.ResourceType = (Entity.MapInput e msg).ResourceType ∧
        r.Role = (Entity.MapInput e msg).Role)) :
    (Entity.LoadFromInput s e msg).2 = false := by
  rw [LoadFromInput_snd]
  rcases LoadFromInput_lookup_cases s (Entity.MapInput e msg) with ⟨hm, hl, hi, hf⟩ | ⟨hz, _, _⟩
  · by_cases h0 : (Entity.MapInput e msg).ID = 0
    · exact absurd (hf h0) (h4 h0 _ hm hl)
    · exact absurd (hi h0) (hid h0 _ hm hl)
  · rw [hz]; rfl

/-- The rows that survive `db.Unscoped().Delete` are rows of the table with
another id. -/
theorem mem_dbUnscopedDelete {s : Store} {v x : Entity}
    (h : x ∈ (dbUnscopedDelete s v).rows) : x ∈ s.rows ∧ x.ID ≠ v.ID := by
  unfold dbUnscopedDelete at h
  by_cases h0 : v.ID = 0
  · simp [h0] at h
  · simpa [h0, List.mem_filter] using h

/-- Every branch of `Find` is one filter over the live rows; a row that equals
the input on its four fields passes it, and when the input names both a user
and a resource only rows with the input's triple pass it. -/
theorem Find_as_filter (q : Entity) :
    ∃ cond : Entity → Bool, (∀ s, Entity.Find s q = dbFind s cond) ∧
      (∀ x : Entity, x.UserID = q.UserID → x.ResourceID = q.ResourceID →
        x.ResourceType = q.ResourceType → x.Role = q.Role → cond x = true) ∧
      (q.UserID ≠ "" → q.ResourceID ≠ "" → ∀ x, cond x = true → triple x = triple q) := by
  by_cases hu : q.UserID = ""
  · refine ⟨fun r => r.ResourceID == q.ResourceID && r.ResourceType == q.ResourceType,
      fun s => by simp [Entity.Find, hu], fun x _ h2 h3 _ => by simp [h2, h3],
      fun h => absurd hu h⟩
  · have hu1 : (q.UserID == "") = false := by simpa using hu
    by_cases hr : q.ResourceID = ""
    · refine ⟨fun r => r.UserID == q.UserID && r.ResourceType == q.ResourceType,
        fun s => by simp [Entity.Find, hu1, hr], fun x h1 _ h3 _ => by simp [h1, h3],
        fun _ h => absurd hr h⟩
    · have hr1 : (q.ResourceID == "") = false := by simpa using hr
      by_cases hro : q.Role = ""
      · refine ⟨fun r => r.UserID == q.UserID && r.ResourceID == q.ResourceID
            && r.ResourceType == q.ResourceType,
          fun s => by simp [Entity.Find, hu1, hr1, hro],
          fun x h1 h2 h3 _ => by simp [h1, h2, h3], fun _ _ x hx => ?_⟩
        simp only [Bool.and_eq_true, beq_iff_eq] at hx
        simp [triple, hx.1.1, hx.1.2, hx.2]
      · have hro1 : (q.Role == "") = false := by simpa using hro
        refine ⟨fun r => r.UserID == q.UserID && r.ResourceID == q.ResourceID
            && r.ResourceType == q.ResourceType && r.Role == q.Role,
          fun s => by simp [Entity.Find, hu1, hr1, hro1],
          fun x h1 h2 h3 h4 => by simp [h1, h2, h3, h4], fun _ _ x hx => ?_⟩
        simp only [Bool.and_eq_true, beq_iff_eq] at hx
        simp [triple, hx.1.1.1, hx.1.1.2, hx.1.2]

/-- What `Find` returns are live rows of the table. -/
theorem mem_Find {s : Store} {q x : Entity} (h : x ∈ Entity.Find s q) :
    x ∈ s.rows ∧ live x = true := by
  obtain ⟨cond, hf, _, _⟩ := Find_as_filter q
  rw [hf s] at h
  exact ⟨(mem_dbFind.mp h).1, (mem_dbFind.mp h).2.1⟩

/-- Under invariant I1 two live rows with the same triple are the same row. -/
theorem tripleUniqueLive_inj {s : Store} (h : TripleUniqueLive s) {a b : Entity}
    (ha : a ∈ s.rows) (hla : live a = true) (hb : b ∈ s.rows) (hlb : live b = true)
    (ht : triple a = triple b) : a = b :=
  List.inj_on_of_nodup_map h (List.mem_filter.mpr ⟨ha, hla⟩) (List.mem_filter.mpr ⟨hb, hlb⟩) ht

/-- Under the primary key two rows with the same id are the same row. -/
theorem primaryKey_inj {s : Store} (h : PrimaryKey s) {a b : Entity}
    (ha : a ∈ s.rows) (hb : b ∈ s.rows) (hid : a.ID = b.ID) : a = b :=
  List.inj_on_of_nodup_map h ha hb hid

/-- Under `idx_uniq` two rows with the same triple are the same row. -/
theorem idxUniq_inj {s : Store} (h : IdxUniq s) {a b : Entity}
    (ha : a ∈ s.rows) (hb : b ∈ s.rows) (ht : triple a = triple b) : a = b :=
  List.inj_on_of_nodup_map h ha hb ht

/-- The update path of `db.Save`: a value that carries the id and the triple
of a live row replaces that row and no other. -/
theorem dbSave_update {s : Store} (now : Nat) (v : Entity) {r : Entity} (hpk : PrimaryKey s)
    (hix : IdxUniq s) (hr : r ∈ s.rows) (hl : live r = true) (hid : v.ID = r.ID)
    (hnz : r.ID ≠ 0) (ht : triple v = triple r) :
    dbSave s now v =
      ({ rows := s.rows.map (fun x => if x = r then { v with UpdatedAt := now } else x),
         seq := s.seq }, { v with UpdatedAt := now }) := by
  have hv0 : v.ID ≠ 0 := by rw [hid]; exact hnz
  have hany : s.rows.any (fun x => live x && x.ID == v.ID) = true :=
    List.any_eq_true.mpr ⟨r, hr, by simp [hl, hid]⟩
  have hconf : s.rows.any (fun x => !(live x && x.ID == v.ID) &&
      triple x == triple { v with UpdatedAt := now }) = false := by
    rw [List.any_eq_false]
    intro x hx hc
    simp only [Bool.and_eq_true, beq_iff_eq, Bool.not_eq_true', Bool.and_eq_false_iff] at hc
    have hxt : triple x = triple r := hc.2.trans ht
    have hxr : x = r := idxUniq_inj hix hx hr hxt
    rw [hxr, hl, hid] at hc
    simp at hc
  have hmap : s.rows.map (fun x => if (live x && x.ID == v.ID) = true
      then { v with UpdatedAt := now } else x) =
      s.rows.map (fun x => if x = r then { v with UpdatedAt := now } else x) := by
    apply List.map_congr_left
    intro x hx
    by_cases hxr : x = r
    · simp [hxr, hl, hid]
    · have : x.ID ≠ v.ID := fun h => hxr (primaryKey_inj hpk hx hr (h.trans hid))
      simp [hxr, this]
  unfold dbSave
  simp only [hv0, if_false, hany, hconf, if_true, hmap]
  simp

/-- The create path of `db.Save`: a value without id whose triple is not in
the table is appended with the next id of the sequence and blank timestamps
stamped. -/
theorem dbSave_create {s : Store} (now : Nat) {v : Entity} (hsa : SeqAhead s)
    (hid : v.ID = 0) (hfresh : ∀ r ∈ s.rows, triple r ≠ triple v) :
    dbSave s now v =
      ({ rows := s.rows ++ [{ createStamps now v with ID := s.seq + 1 }], seq := s.seq + 1 },
       { createStamps now v with ID := s.seq + 1 }) := by
  have hconf : insertConflict s { createStamps now v with ID := s.seq + 1 } = false := by
    unfold insertConflict
    rw [List.any_eq_false]
    intro x hx hc
    simp only [Bool.or_eq_true, beq_iff_eq] at hc
    rcases hc with hc | hc
    · have := hsa x hx
      omega
    · exact hfresh x hx hc
  have hid1 : (createStamps now v).ID = 0 := hid
  unfold dbSave dbCreate
  simp only [hid, hid1, if_true, hconf]
  simp

/-- The lookup of `Update` returns the live row that the input names, by id
when it has one and by its triple otherwise. -/
theorem Update_lookup_found {s : Store} {e1 r : Entity} (hpk : PrimaryKey s) (hix : IdxUniq s)
    (hr : r ∈ s.rows) (hl : live r = true)
    (hkey : (e1.ID = 0 ∧ triple e1 = triple r) ∨ (e1.ID ≠ 0 ∧ e1.ID = r.ID)) :
    Entity.Update.lookup s e1 = r := by
  unfold Entity.Update.lookup
  rcases hkey with ⟨h0, ht⟩ | ⟨hne, hid⟩
  · have hn : ¬ e1.ID > 0 := by omega
    simp only [hn, if_false]
    have ht3 : r.UserID = e1.UserID ∧ r.ResourceID = e1.ResourceID ∧
        r.ResourceType = e1.ResourceType := by
      simp only [triple, Prod.mk.injEq] at ht
      exact ⟨ht.1.symm, ht.2.1.symm, ht.2.2.symm⟩
    apply dbFirst_unique _ hr hl
    · simp [ht3.1, ht3.2.1, ht3.2.2]
    · intro y hy _ hc
      simp only [Bool.and_eq_true, beq_iff_eq] at hc
      apply idxUniq_inj hix hy hr
      simp [triple, hc.1.1, hc.1.2, hc.2, ht3.1, ht3.2.1, ht3.2.2]
  · have hp : e1.ID > 0 := by omega
    simp only [hp, if_true]
    apply dbFirst_unique _ hr hl
    · simp [hid]
    · intro y hy _ hc
      simp only [beq_iff_eq] at hc
      exact primaryKey_inj hpk hy hr (hc.trans hid)

/-- The fourth branch of `Find` (entity.go:43-44, the scan of every live row)
never runs: `Find` is the chain of the other four. -/
theorem Find_scan_branch_unreachable (s : Store) (e : Entity) :
    Entity.Find s e =
      if e.UserID == "" then
        dbFind s (fun r => r.ResourceID == e.ResourceID && r.ResourceType == e.ResourceType)
      else if e.ResourceID == "" then
        dbFind s (fun r => r.UserID == e.UserID && r.ResourceType == e.ResourceType)
      else if e.Role == "" then
        dbFind s (fun r => r.UserID == e.UserID && r.ResourceID == e.ResourceID
          && r.ResourceType == e.ResourceType)
      else
        dbFind s (fun r => r.UserID == e.UserID && r.ResourceID == e.ResourceID
          && r.ResourceType == e.ResourceType && r.Role == e.Role) := by
  unfold Entity.Find
  by_cases hu : (e.UserID == "") = true
  · simp [hu]
  · by_cases hr : (e.ResourceID == "") = true
    · simp [hu, hr]
    · by_cases hro : (e.Role == "") = true
      · simp [hu, hr, hro]
      · simp [hu, hr, hro]

/-- When `Update` returns, the caller's entity is the decoded input, whatever
the table holds. -/
theorem Update_receiver_eq_MapInput (s : Store) (now : Nat) (e : Entity) (body : Body) :
    (Entity.Update s now e body).receiver = Entity.MapInput e body := rfl

/-! ## Theorems -/

/-- C1: on each of the four supported shapes `Find` returns exactly the live
rows that equal the input on every non-empty field of the input, one element
per matching row, in storage order. -/
theorem Find_supported_shapes (s : Store) (e : Entity) (h : SupportedShape e) :
    Entity.Find s e = s.rows.filter (fun r => live r && matchesNonEmpty e r) := by
  have hne : ∀ x : String, x ≠ "" → (x == "") = false := fun x hx => by simpa using hx
  unfold Entity.Find dbFind matchesNonEmpty
  rcases h with ⟨h1, h2, h3, h4⟩ | ⟨h1, h2, h3, h4⟩ | ⟨h1, h2, h3, h4⟩ | ⟨h1, h2, h3, h4⟩
  · simp [hne _ h1, hne _ h2, h3, h4]
  · simp [hne _ h1, hne _ h2, h3, h4]
  · simp [hne _ h1, hne _ h2, hne _ h3, h4]
  · simp [hne _ h1, hne _ h2, hne _ h3, hne _ h4]

/-- Witness of C1 on the full-tuple shape. -/
theorem Find_supported_shapes_witness :
    SupportedShape (query 0 "u1" "r1" "doc" "admin") ∧
    Entity.Find tableTwo (query 0 "u1" "r1" "doc" "admin") =
      tableTwo.rows.filter
        (fun r => live r && matchesNonEmpty (query 0 "u1" "r1" "doc" "admin") r) :=
  ⟨by decide, Find_supported_shapes tableTwo (query 0 "u1" "r1" "doc" "admin") (by decide)⟩

/-- C6: with only resource_type given, `Find` takes its first branch
(`UserID == ""`) and asks for `resource_id = ''`: the live document record of
`tableOne`, whose resource_id is `r1`, is not returned. -/
theorem Find_only_resource_type_misses_records :
    (row 1 "u1" "r1" "doc" "admin") ∈ tableOne.rows ∧
    live (row 1 "u1" "r1" "doc" "admin") = true ∧
    Entity.Find tableOne (query 0 "" "" "doc" "") = [] := by
  decide

/-- C9 as stated fails: an input with id 1 gets two records from `tableTwo`,
and another input with the same id gets a different answer. -/
theorem Find_with_id_returns_many :
    (Entity.Find tableTwo (query 1 "" "r1" "doc" "")).length = 2 ∧
    Entity.Find tableTwo (query 1 "" "r1" "doc" "") ≠
      Entity.Find tableTwo (query 1 "u1" "r1" "doc" "admin") := by
  decide

/-- C9 amended: `Find` never looks at the id. Two inputs that agree on
user_id, resource_id, resource_type and role get the same answer, whatever
their ids, zero or not. -/
theorem Find_ignores_id (s : Store) (e f : Entity) (hu : e.UserID = f.UserID)
    (hr : e.ResourceID = f.ResourceID) (ht : e.ResourceType = f.ResourceType)
    (hro : e.Role = f.Role) : Entity.Find s e = Entity.Find s f := by
  unfold Entity.Find
  rw [hu, hr, ht, hro]

/-- Witness of C9 amended: the same four fields with id 2 and with no id. -/
theorem Find_ignores_id_witness :
    Entity.Find tableTwo (query 2 "u1" "r1" "doc" "admin") =
      Entity.Find tableTwo (query 0 "u1" "r1" "doc" "admin") :=
  Find_ignores_id tableTwo (query 2 "u1" "r1" "doc" "admin") (query 0 "u1" "r1" "doc" "admin")
    rfl rfl rfl rfl

/-- C5 as stated fails: the stored record of `tableOne` has the triple of the
input, which carries no role (or another role), yet `LoadFromInput` answers
`false`: the role is part of its lookup key. -/
theorem LoadFromInput_role_is_part_of_key :
    (Entity.MapInput Entity.zero (payload "u1" "r1" "doc" none)).ID = 0 ∧
    (∃ r ∈ tableOne.rows, live r = true ∧
      triple r = triple (Entity.MapInput Entity.zero (payload "u1" "r1" "doc" none))) ∧
    (Entity.LoadFromInput tableOne Entity.zero (payload "u1" "r1" "doc" none)).2 = false ∧
    (Entity.LoadFromInput tableOne Entity.zero (payload "u1" "r1" "doc" (some "viewer"))).2
      = false := by
  decide

/-- C5 amended: for an input without id `LoadFromInput` answers `true` exactly
when a live row equals the input on user_id, resource_id, resource_type and
role; for an input with an id, exactly when a live row has that id; and on
`true` the receiver holds the id, the four fields and both timestamps of such a
row. -/
theorem LoadFromInput_resolves_by_id_or_four_fields (s : Store) (e : Entity) (msg : Body)
    (hpos : IdsNonzero s) :
    ((Entity.MapInput e msg).ID = 0 →
      ((Entity.LoadFromInput s e msg).2 = true ↔
        ∃ r ∈ s.rows, live r = true ∧ r.UserID = (Entity.MapInput e msg).UserID ∧
          r.ResourceID = (Entity.MapInput e msg).ResourceID ∧
          r.ResourceType = (Entity.MapInput e msg).ResourceType ∧
          r.Role = (Entity.MapInput e msg).Role)) ∧
    ((Entity.MapInput e msg).ID ≠ 0 →
      ((Entity.LoadFromInput s e msg).2 = true ↔
        ∃ r ∈ s.rows, live r = true ∧ r.ID = (Entity.MapInput e msg).ID)) ∧
    ((Entity.LoadFromInput s e msg).2 = true →
      ∃ r ∈ s.rows, live r = true ∧
        ((Entity.MapInput e msg).ID ≠ 0 → r.ID = (Entity.MapInput e msg).ID) ∧
        ((Entity.MapInput e msg).ID = 0 → r.UserID = (Entity.MapInput e msg).UserID ∧
          r.ResourceID = (Entity.MapInput e msg).ResourceID ∧
          r.ResourceType = (Entity.MapInput e msg).ResourceType ∧
          r.Role = (Entity.MapInput e msg).Role) ∧
        (Entity.LoadFromInput s e msg).1.ID = r.ID ∧
        (Entity.LoadFromInput s e msg).1.UserID = r.UserID ∧
        (Entity.LoadFromInput s e msg).1.ResourceID = r.ResourceID ∧
        (Entity.LoadFromInput s e msg).1.ResourceType = r.ResourceType ∧
        (Entity.LoadFromInput s e msg).1.Role = r.Role ∧
        (Entity.LoadFromInput s e msg).1.CreatedAt = r.CreatedAt ∧
        (Entity.LoadFromInput s e msg).1.UpdatedAt = r.UpdatedAt) := by
  have hcases := LoadFromInput_lookup_cases s (Entity.MapInput e msg)
  have hsnd := LoadFromInput_snd s e msg
  refine ⟨fun hid => ⟨fun ht => ?_, fun hex => ?_⟩, fun hid => ⟨fun ht => ?_, fun hex => ?_⟩,
    fun ht => ?_⟩
  · rw [hsnd] at ht
    rcases hcases with ⟨hm, hl, _, h4⟩ | ⟨hz, _, _⟩
    · exact ⟨_, hm, hl, h4 hid⟩
    · rw [hz] at ht; simp [Entity.HasID, Entity.zero] at ht
  · rw [hsnd]
    rcases hcases with ⟨hm, _, _, _⟩ | ⟨_, _, hno⟩
    · exact (HasID_iff _).mpr (hpos _ hm)
    · obtain ⟨r, hr, hl, hc⟩ := hex
      exact absurd hc (hno hid r hr hl)
  · rw [hsnd] at ht
    rcases hcases with ⟨hm, hl, hi, _⟩ | ⟨hz, _, _⟩
    · exact ⟨_, hm, hl, hi hid⟩
    · rw [hz] at ht; simp [Entity.HasID, Entity.zero] at ht
  · rw [hsnd]
    rcases hcases with ⟨hm, _, _, _⟩ | ⟨_, hno, _⟩
    · exact (HasID_iff _).mpr (hpos _ hm)
    · obtain ⟨r, hr, hl, hc⟩ := hex
      exact absurd hc (hno hid r hr hl)
  · obtain ⟨r, hr, hl, _, hi, h4, hf⟩ := LoadFromInput_true_row s e msg ht
    exact ⟨r, hr, hl, hi, h4, hf⟩

/-- Witness of C5 amended: the full tuple of the stored record is resolved. -/
theorem LoadFromInput_resolves_by_id_or_four_fields_witness :
    IdsNonzero tableOne ∧
    (Entity.MapInput Entity.zero (payload "u1" "r1" "doc" (some "admin"))).ID = 0 ∧
    (Entity.LoadFromInput tableOne Entity.zero (payload "u1" "r1" "doc" (some "admin"))).2
      = true :=
  ⟨by decide, by decide,
    ((LoadFromInput_resolves_by_id_or_four_fields tableOne Entity.zero
      (payload "u1" "r1" "doc" (some "admin")) (by decide)).1 (by decide)).mpr
      ⟨row 1 "u1" "r1" "doc" "admin", by decide, by decide, by decide, by decide, by decide,
        by decide⟩⟩

/-- C4 as stated fails: after `Delete` of the live record of `tableOne` the
table holds no row with its id, stamped or not. -/
theorem Delete_leaves_no_stamped_row :
    (row 1 "u1" "r1" "doc" "admin") ∈ tableOne.rows ∧
    live (row 1 "u1" "r1" "doc" "admin") = true ∧
    ¬ (∃ x ∈ (Entity.Delete tableOne (row 1 "u1" "r1" "doc" "admin")).1.rows, x.ID = 1) := by
  decide

/-- C4 amended: `Delete` on an entity whose id is that of a stored record is a
hard delete. Afterwards the table holds no row with that id, live or
soft-deleted; the rows with another id are kept as they were, in order; the
sequence is untouched and the method returns `nil`. -/
theorem Delete_removes_the_row (s : Store) (e r : Entity) (hr : r ∈ s.rows)
    (hid : r.ID = e.ID) (hnz : e.ID ≠ 0) :
    (Entity.Delete s e).1.rows = s.rows.filter (fun x => x.ID != r.ID) ∧
    (∀ x ∈ (Entity.Delete s e).1.rows, x.ID ≠ r.ID) ∧
    r ∉ (Entity.Delete s e).1.rows ∧
    (Entity.Delete s e).1.rows.length < s.rows.length ∧
    (Entity.Delete s e).1.seq = s.seq ∧
    (Entity.Delete s e).2 = none := by
  have hrows : (Entity.Delete s e).1.rows = s.rows.filter (fun x => x.ID != r.ID) := by
    simp [Entity.Delete, dbUnscopedDelete, hnz, hid]
  have hall : ∀ x ∈ (Entity.Delete s e).1.rows, x.ID ≠ r.ID := by
    intro x hx
    rw [hid]
    exact (mem_dbUnscopedDelete hx).2
  refine ⟨hrows, hall, fun hmem => hall r hmem rfl, ?_, ?_, rfl⟩
  · rw [hrows, List.length_filter_lt_length_iff_exists]
    exact ⟨r, hr, by simp⟩
  · simp [Entity.Delete, dbUnscopedDelete, hnz]

/-- Witness of C4 amended on `tableTwo`. -/
theorem Delete_removes_the_row_witness :
    (row 1 "u1" "r1" "doc" "admin") ∈ tableTwo.rows ∧
    (Entity.Delete tableTwo (query 1 "" "" "" "")).1.rows = [row 2 "u2" "r1" "doc" "viewer"] :=
  ⟨by decide,
    (Delete_removes_the_row tableTwo (query 1 "" "" "" "") (row 1 "u1" "r1" "doc" "admin")
      (by decide) (by decide) (by decide)).1.trans (by decide)⟩

/-- C3 as stated fails: the record loaded from `tableAnyUser` has an empty
user_id; after its `Delete`, `Find` with its triple takes the branch
`UserID == ""` and returns the record of user u2 on the same resource. -/
theorem Find_after_Delete_not_empty :
    TripleUniqueLive tableAnyUser ∧
    (Entity.LoadFromInput tableAnyUser Entity.zero (payloadID 1)) =
      (row 1 "" "r1" "doc" "admin", true) ∧
    Entity.Find (Entity.Delete tableAnyUser (row 1 "" "r1" "doc" "admin")).1
      (query 0 "" "r1" "doc" "") = [row 2 "u2" "r1" "doc" "viewer"] := by
  decide

/-- C3 amended: under invariant I1, after `Delete` on an entity loaded by
`LoadFromInput`, no `Find` returns a row with the record's id; `Find` with the
record's triple, whatever the role, is empty when the record's user_id and
resource_id are not empty; and `LoadFromInput` with the record's id, or with
its triple and no id (whatever the role), answers `false`, so that
`LoadFromInputOrFail` sends the not-found reply to a second delete. -/
theorem Delete_then_not_resolved (s : Store) (e0 : Entity) (msg : Body)
    (hu : TripleUniqueLive s) (hload : (Entity.LoadFromInput s e0 msg).2 = true) :
    (∀ q : Entity, ∀ x ∈ Entity.Find
        (Entity.Delete s (Entity.LoadFromInput s e0 msg).1).1 q,
        x.ID ≠ (Entity.LoadFromInput s e0 msg).1.ID) ∧
    ((Entity.LoadFromInput s e0 msg).1.UserID ≠ "" →
      (Entity.LoadFromInput s e0 msg).1.ResourceID ≠ "" →
      ∀ q : Entity, triple q = triple (Entity.LoadFromInput s e0 msg).1 →
        Entity.Find (Entity.Delete s (Entity.LoadFromInput s e0 msg).1).1 q = []) ∧
    (∀ (e1 : Entity) (m : Body),
      (Entity.MapInput e1 m).ID = (Entity.LoadFromInput s e0 msg).1.ID →
      (Entity.LoadFromInput (Entity.Delete s (Entity.LoadFromInput s e0 msg).1).1 e1 m).2
        = false) ∧
    (∀ (e1 : Entity) (m : Body), (Entity.MapInput e1 m).ID = 0 →
      triple (Entity.MapInput e1 m) = triple (Entity.LoadFromInput s e0 msg).1 →
      (Entity.LoadFromInput (Entity.Delete s (Entity.LoadFromInput s e0 msg).1).1 e1 m).2
        = false) ∧
    (∀ m : Body, (Entity.MapInput Entity.zero m).ID = (Entity.LoadFromInput s e0 msg).1.ID →
      (Entity.LoadFromInputOrFail (Entity.Delete s (Entity.LoadFromInput s e0 msg).1).1 m).2
        = false) := by
  obtain ⟨r, hr, hl, hnz, _, _, hID, hU, hRi, hRt, _, _, _⟩ :=
    LoadFromInput_true_row s e0 msg hload
  generalize (Entity.LoadFromInput s e0 msg).1 = e at *
  have htr : triple e = triple r := by simp [triple, hU, hRi, hRt]
  have hgone : ∀ x ∈ (Entity.Delete s e).1.rows, x ∈ s.rows ∧ x.ID ≠ e.ID :=
    fun x hx => mem_dbUnscopedDelete hx
  have hnotriple : ∀ x ∈ (Entity.Delete s e).1.rows, live x = true → triple x ≠ triple e := by
    intro x hx hlx hxt
    have hxr : x = r := tripleUniqueLive_inj hu (hgone x hx).1 hlx hr hl (hxt.trans htr)
    exact (hgone x hx).2 (by rw [hxr, hID])
  have hbyid : ∀ (e1 : Entity) (m : Body), (Entity.MapInput e1 m).ID = e.ID →
      (Entity.LoadFromInput (Entity.Delete s e).1 e1 m).2 = false := by
    intro e1 m hm
    apply LoadFromInput_false_of_none
    · intro _ x hx _ hxid
      exact (hgone x hx).2 (hxid.trans hm)
    · intro h0 x hx _ _
      have : e.ID = 0 := by rw [← hm]; exact h0
      exact hnz (by rw [← hID]; exact this)
  refine ⟨fun q x hx => (hgone x (mem_Find hx).1).2, fun hue hre q hq => ?_,
    hbyid, fun e1 m hm0 hmt => ?_, fun m hm => hbyid Entity.zero m hm⟩
  · obtain ⟨cond, hf, _, hc⟩ := Find_as_filter q
    have hqu : q.UserID ≠ "" := by
      have : q.UserID = e.UserID := congrArg (fun p => p.1) hq
      rw [this]; exact hue
    have hqr : q.ResourceID ≠ "" := by
      have : q.ResourceID = e.ResourceID := congrArg (fun p => p.2.1) hq
      rw [this]; exact hre
    rw [List.eq_nil_iff_forall_not_mem]
    intro x hx
    have hx2 := hx
    rw [hf] at hx2
    have hxm := mem_dbFind.mp hx2
    exact hnotriple x hxm.1 hxm.2.1 ((hc hqu hqr x hxm.2.2).trans hq)
  · apply LoadFromInput_false_of_none
    · intro hne; exact absurd hm0 hne
    · intro _ x hx hlx hc
      apply hnotriple x hx hlx
      rw [← hmt]
      simp [triple, hc.1, hc.2.1, hc.2.2.1]

/-- Witness of C3 amended on `tableTwo`: the record of u1 is loaded by its id
and deleted; `Find` with its triple is empty afterwards. -/
theorem Delete_then_not_resolved_witness :
    TripleUniqueLive tableTwo ∧
    (Entity.LoadFromInput tableTwo Entity.zero (payloadID 1)).2 = true ∧
    Entity.Find
      (Entity.Delete tableTwo (Entity.LoadFromInput tableTwo Entity.zero (payloadID 1)).1).1
      (query 0 "u1" "r1" "doc" "") = [] :=
  ⟨by decide, by decide,
    (Delete_then_not_resolved tableTwo Entity.zero (payloadID 1) (by decide) (by decide)).2.1
      (by decide) (by decide) (query 0 "u1" "r1" "doc" "") (by decide)⟩

/-- C2: in every table that satisfies its schema (primary key and unique
index, wherever the id sequence stands), when the input names a live
row `r` (by its id when it has one, by its triple otherwise, whatever the
roles), `Update` writes a record with the id, user_id, resource_id,
resource_type and created_at of `r` and the role of the input in the place of
`r`, and leaves every other row as it was. -/
theorem Update_merges_role_into_match (s : Store) (now : Nat) (e : Entity) (body : Body)
    (r : Entity) (hwf : s.WF) (hr : r ∈ s.rows) (hl : live r = true)
    (hkey : ((Entity.MapInput e body).ID = 0 ∧ triple (Entity.MapInput e body) = triple r) ∨
      ((Entity.MapInput e body).ID ≠ 0 ∧ (Entity.MapInput e body).ID = r.ID)) :
    (Entity.Update s now e body).stored ∈ (Entity.Update s now e body).store.rows ∧
    (Entity.Update s now e body).stored.ID = r.ID ∧
    (Entity.Update s now e body).stored.UserID = r.UserID ∧
    (Entity.Update s now e body).stored.ResourceID = r.ResourceID ∧
    (Entity.Update s now e body).stored.ResourceType = r.ResourceType ∧
    (Entity.Update s now e body).stored.CreatedAt = r.CreatedAt ∧
    (Entity.Update s now e body).stored.Role = (Entity.MapInput e body).Role ∧
    (Entity.Update s now e body).stored.UpdatedAt = now ∧
    live (Entity.Update s now e body).stored = true ∧
    (Entity.Update s now e body).store.rows =
      s.rows.map (fun x => if x = r then (Entity.Update s now e body).stored else x) ∧
    (Entity.Update s now e body).store.seq = s.seq := by
  obtain ⟨hpos, hpk, hix⟩ := hwf
  have hlook := Update_lookup_found hpk hix hr hl hkey
  have hsave := dbSave_update now { r with Role := (Entity.MapInput e body).Role }
    hpk hix hr hl rfl (hpos r hr) rfl
  have hU : Entity.Update s now e body =
      UpdateResult.mk
        (Store.mk (s.rows.map (fun x => if x = r then
          { r with Role := (Entity.MapInput e body).Role, UpdatedAt := now } else x)) s.seq)
        (Entity.MapInput e body)
        { r with Role := (Entity.MapInput e body).Role, UpdatedAt := now } none := by
    unfold Entity.Update
    simp only [hlook, hsave]
  rw [hU]
  refine ⟨?_, rfl, rfl, rfl, rfl, rfl, rfl, rfl, hl, rfl, rfl⟩
  exact List.mem_map.mpr ⟨r, hr, if_pos rfl⟩

/-- Witness of C2: the role of the record of `tableTwo` named by its triple is
replaced. -/
theorem Update_merges_role_into_match_witness :
    tableTwo.WF ∧
    (Entity.Update tableTwo 9 Entity.zero (payload "u1" "r1" "doc" (some "viewer"))).store.rows =
      [{ row 1 "u1" "r1" "doc" "viewer" with UpdatedAt := 9 }, row 2 "u2" "r1" "doc" "viewer"] :=
  ⟨by decide,
    (Update_merges_role_into_match tableTwo 9 Entity.zero (payload "u1" "r1" "doc" (some "viewer"))
      (row 1 "u1" "r1" "doc" "admin") (by decide) (by decide) (by decide)
      (Or.inl ⟨by decide, by decide⟩)).2.2.2.2.2.2.2.2.2.1.trans (by decide)⟩

/-- C8: `Update` finds the record of `tableOne` and writes the new role into
the table, but the receiver the caller holds is the decoded input (id 0, no
timestamps), not the record written: line 125 rebinds the local pointer. -/
theorem Update_receiver_is_not_the_stored_record :
    (Entity.Update tableOne 9 Entity.zero (payload "u1" "r1" "doc" (some "viewer"))).stored =
      { row 1 "u1" "r1" "doc" "viewer" with UpdatedAt := 9 } ∧
    (Entity.Update tableOne 9 Entity.zero (payload "u1" "r1" "doc" (some "viewer"))).store.rows =
      [{ row 1 "u1" "r1" "doc" "viewer" with UpdatedAt := 9 }] ∧
    (Entity.Update tableOne 9 Entity.zero (payload "u1" "r1" "doc" (some "viewer"))).receiver =
      query 0 "u1" "r1" "doc" "viewer" ∧
    (Entity.Update tableOne 9 Entity.zero (payload "u1" "r1" "doc" (some "viewer"))).receiver ≠
      (Entity.Update tableOne 9 Entity.zero (payload "u1" "r1" "doc" (some "viewer"))).stored := by
  decide

/-- C7 as stated fails: the triple of the input matches no live record of
`tableDeleted`, but the soft-deleted row holds it in `idx_uniq`, the insert is
refused and `Find` returns nothing; and a record saved with `DeletedAt` set is
stored soft-deleted and not found either. -/
theorem Save_then_Find_misses_record :
    (TripleUniqueLive tableDeleted ∧ (query 0 "u1" "r1" "doc" "admin").ID = 0 ∧
      (∀ r ∈ tableDeleted.rows, live r = true →
        triple r ≠ triple (query 0 "u1" "r1" "doc" "admin")) ∧
      Entity.Find (Entity.Save tableDeleted 9 (query 0 "u1" "r1" "doc" "admin")).1
        (query 0 "u1" "r1" "doc" "admin") = []) ∧
    (TripleUniqueLive tableEmpty ∧
      Entity.Find (Entity.Save tableEmpty 9
        { query 0 "u1" "r1" "doc" "admin" with DeletedAt := some 3 }).1
        (query 0 "u1" "r1" "doc" "admin") = []) := by
  decide

/-- C7 amended: when the sequence is ahead of the stored ids, a record without
id and with `DeletedAt` unset whose triple is held by no row of the table,
live or soft-deleted, is appended by `Save` with the next id, and `Find` with
its four fields right after returns a list that holds the saved record exactly
once. -/
theorem Save_then_Find_once (s : Store) (now : Nat) (e q : Entity) (hsa : SeqAhead s)
    (hid : e.ID = 0) (hdel : e.DeletedAt = none)
    (hfresh : ∀ r ∈ s.rows, triple r ≠ triple e)
    (hq : q.UserID = e.UserID ∧ q.ResourceID = e.ResourceID ∧
      q.ResourceType = e.ResourceType ∧ q.Role = e.Role) :
    (Entity.Save s now e).1.rows = s.rows ++ [(Entity.Save s now e).2.1] ∧
    (Entity.Save s now e).2.1.ID = s.seq + 1 ∧
    triple (Entity.Save s now e).2.1 = triple e ∧
    (Entity.Save s now e).2.1.Role = e.Role ∧
    (Entity.Find (Entity.Save s now e).1 q).count (Entity.Save s now e).2.1 = 1 := by
  have hsave := dbSave_create now hsa hid hfresh
  have hS : Entity.Save s now e =
      ({ rows := s.rows ++ [{ createStamps now e with ID := s.seq + 1 }], seq := s.seq + 1 },
       { createStamps now e with ID := s.seq + 1 }, none) := by
    unfold Entity.Save
    rw [hsave]
  rw [hS]
  refine ⟨rfl, rfl, rfl, rfl, ?_⟩
  obtain ⟨cond, hf, hc, _⟩ := Find_as_filter q
  have hnot : ({ createStamps now e with ID := s.seq + 1 } : Entity) ∉ s.rows := by
    intro hmem
    have := hsa _ hmem
    simp at this
  have hpass : (live ({ createStamps now e with ID := s.seq + 1 } : Entity) &&
      cond { createStamps now e with ID := s.seq + 1 }) = true := by
    rw [hc { createStamps now e with ID := s.seq + 1 } hq.1.symm hq.2.1.symm hq.2.2.1.symm
      hq.2.2.2.symm]
    simp [live, createStamps, hdel]
  rw [hf]
  simp only [dbFind, List.filter_append, List.count_append]
  rw [List.count_eq_zero_of_not_mem (fun h => hnot (List.mem_filter.mp h).1)]
  simp [List.filter, hpass]

/-- Witness of C7 amended: a new grant saved into `tableOne` is found once. -/
theorem Save_then_Find_once_witness :
    SeqAhead tableOne ∧
    (Entity.Find (Entity.Save tableOne 9 (query 0 "u2" "r1" "doc" "viewer")).1
      (query 0 "u2" "r1" "doc" "viewer")).count
      (Entity.Save tableOne 9 (query 0 "u2" "r1" "doc" "viewer")).2.1 = 1 :=
  ⟨by decide,
    (Save_then_Find_once tableOne 9 (query 0 "u2" "r1" "doc" "viewer")
      (query 0 "u2" "r1" "doc" "viewer") (by decide) (by decide) (by decide) (by decide)
      ⟨rfl, rfl, rfl, rfl⟩).2.2.2.2⟩

/-- C10 as stated fails: on a body that is not JSON `Update` returns `nil`
and, on the empty table with a fresh receiver, inserts an all-empty record. -/
theorem Update_accepts_malformed_body :
    Body.malformed.err = true ∧
    (Entity.Update tableEmpty 7 Entity.zero Body.malformed).err = none ∧
    (Entity.Update tableEmpty 7 Entity.zero Body.malformed).store.rows =
      [{ Entity.zero with ID := 1, CreatedAt := 7, UpdatedAt := 7 }] := by
  decide

/-- C10 amended: on every table `Update` never fails on a malformed body. It
returns `nil` and does exactly what it does on a well-formed body with the
members the decoder stored; on a body that is not JSON the receiver stays as
it was and the record looked up from it is saved. With a fresh receiver, when
the sequence is ahead of the ids and no row has the all-empty triple, an
all-empty record is inserted. -/
theorem Update_malformed_body_still_persists (s : Store) (now : Nat) :
    (∀ (e : Entity) (b : Body), (Entity.Update s now e b).err = none ∧
      Entity.Update s now e b = Entity.Update s now e { b with err := false }) ∧
    (∀ e : Entity, (Entity.Update s now e Body.malformed).receiver = e ∧
      (Entity.Update s now e Body.malformed).store =
        (dbSave s now { Entity.Update.lookup s e with Role := e.Role }).1) ∧
    (SeqAhead s → (∀ r ∈ s.rows, triple r ≠ ("", "", "")) →
      (Entity.Update s now Entity.zero Body.malformed).store.rows =
        s.rows ++ [{ Entity.zero with ID := s.seq + 1, CreatedAt := now, UpdatedAt := now }]) := by
  refine ⟨fun e b => ⟨rfl, rfl⟩, fun e => ⟨rfl, rfl⟩, fun hsa hno => ?_⟩
  have hmap : Entity.MapInput Entity.zero Body.malformed = Entity.zero := rfl
  have hlook : Entity.Update.lookup s Entity.zero = Entity.zero := by
    unfold Entity.Update.lookup
    have hn : ¬ Entity.zero.ID > 0 := by decide
    simp only [hn, if_false]
    apply dbFirst_none
    intro r _ _
    have := hno r (by assumption)
    cases hc : (r.UserID == Entity.zero.UserID && r.ResourceID == Entity.zero.ResourceID
      && r.ResourceType == Entity.zero.ResourceType) with
    | false => rfl
    | true =>
      simp only [Bool.and_eq_true, beq_iff_eq] at hc
      exact absurd (by simp [triple, hc.1.1, hc.1.2, hc.2, Entity.zero]) this
  have hsave : dbSave s now Entity.zero = _ := dbSave_create now hsa rfl hno
  unfold Entity.Update
  simp only [hmap, hlook]
  have hz : ({ Entity.zero with Role := Entity.zero.Role } : Entity) = Entity.zero := rfl
  rw [hz, hsave]
  rfl

/-- Witness of C10 amended on `tableOne`. -/
theorem Update_malformed_body_still_persists_witness :
    SeqAhead tableOne ∧
    (Entity.Update tableOne 7 Entity.zero Body.malformed).store.rows =
      tableOne.rows ++ [{ Entity.zero with ID := 2, CreatedAt := 7, UpdatedAt := 7 }] :=
  ⟨by decide, (Update_malformed_body_still_persists tableOne 7).2.2 (by decide) (by decide)⟩

end AuthorizationStore
